import Mathlib

/-!
# ModelWatch collection-and-fusion pipeline: a shallow embedding

This file embeds the data model and operations of the ModelWatch scraper
pipeline (`backend/scrapers/huggingface_scraper.py`,
`backend/scrapers/llmstats_scraper.py`,
`backend/scrapers/llmstats_orchestrator.py`,
`backend/scrapers/simple_orchestrator.py`) into Lean, and proves or refutes
the specification's claims about it.

Python strings are modelled as Lean `String`s (sequences of code points,
matching Python's `len`/indexing semantics); numeric values parsed from
decimal text are modelled as exact rationals `ℚ`; Python dicts with string
keys are modelled as insertion-ordered association lists.
-/

namespace ModelWatch

/-! ## Python string primitives -/

/-- Python's `\s` character class (ASCII part): space, tab, newline,
carriage return, vertical tab, form feed. -/
def pyIsSpace (c : Char) : Bool :=
  c = ' ' || c = '\t' || c = '\n' || c = '\r' || c.val = 11 || c.val = 12

/-- Python `str.strip()` on a character list. -/
def stripChars (l : List Char) : List Char :=
  ((l.dropWhile pyIsSpace).reverse.dropWhile pyIsSpace).reverse

/-- Python `str.strip()`. -/
def pyStrip (s : String) : String := ⟨stripChars s.data⟩

/-- Contiguous-sublist test on character lists. -/
def listInfix (needle : List Char) : List Char → Bool
  | [] => needle.isEmpty
  | c :: cs => needle.isPrefixOf (c :: cs) || listInfix needle cs

/-- Python `needle in hay` substring test. -/
def pySubstr (needle hay : String) : Bool := listInfix needle.data hay.data

/-- Python `str.lower()` (ASCII case folding). -/
def pyLower (s : String) : String := ⟨s.data.map Char.toLower⟩

/-- Python `s.replace('NEW', '')`: remove every (non-overlapping,
left-to-right) occurrence of `NEW`. -/
def removeNEW : List Char → List Char
  | [] => []
  | 'N' :: 'E' :: 'W' :: rest => removeNEW rest
  | c :: cs => c :: removeNEW cs

/-- Python `s.split('/')`. -/
def pySplitSlash (s : String) : List String := (s.data.splitOn '/').map fun l => ⟨l⟩

/-- Python `str.isdigit()` (ASCII part): nonempty and all digits. -/
def pyIsDigitStr (s : String) : Bool := s ≠ "" && s.data.all Char.isDigit

/-- Case-insensitive character comparison (ASCII). -/
def ciEq (a b : Char) : Bool := a.toLower = b.toLower

/-- Does `l` start with `pat`, compared case-insensitively? -/
def ciStartsWith (pat l : List Char) : Bool :=
  match pat, l with
  | [], _ => true
  | _ :: _, [] => false
  | p :: ps, c :: cs => ciEq p c && ciStartsWith ps cs

/-! ## Decimal tokens and their values

The scrapers parse numeric tokens out of free text with regular
expressions (`\d+\.?\d*`, `-?\d+\.?\d*`, `[0-9.]+`, `[0-9,]+`) and then
convert them with Python's `float()` / `int()`.  We model the tokens as
character lists and their values as exact rationals. -/

/-- Value of a list of decimal digit characters read left to right. -/
def digitsVal (l : List Char) : Nat :=
  l.foldl (fun a c => 10 * a + (c.toNat - 48)) 0

/-- Value of a decimal token with integer part `ip` and fractional part
`fp` (both digit lists), e.g. `85.5 = decVal "85" "5"`. -/
def decVal (ip fp : List Char) : ℚ :=
  (digitsVal ip : ℚ) + (digitsVal fp : ℚ) / (10 : ℚ) ^ fp.length

/-- Match the regex `\d+\.?\d*` anchored at the head of `l`: a maximal
digit run, an optional dot, a maximal digit run.  Returns the value of
the match and the remainder, or `none` if `l` does not start with a
digit. -/
def matchNumAt (l : List Char) : Option (ℚ × List Char) :=
  let ip := l.takeWhile Char.isDigit
  if ip.isEmpty then none
  else
    let r₁ := l.drop ip.length
    match r₁ with
    | '.' :: r₂ =>
      let fp := r₂.takeWhile Char.isDigit
      some (decVal ip fp, r₂.drop fp.length)
    | _ => some (decVal ip [], r₁)

/-- Leftmost match of `\d+\.?\d*` in `l` (the regex search the scrapers
use to pull the first numeric token out of a cell), as a value. -/
def findNum : List Char → Option ℚ
  | [] => none
  | c :: cs =>
    match matchNumAt (c :: cs) with
    | some (q, _) => some q
    | none => findNum cs

/-- Leftmost match of `-?\d+\.?\d*` in `l` (`_extract_score` in
`llmstats_scraper.py` uses this signed variant). -/
def findSignedNum : List Char → Option ℚ
  | [] => none
  | c :: cs =>
    if c = '-' then
      match matchNumAt cs with
      | some (q, _) => some (-q)
      | none => findSignedNum cs
    else
      match matchNumAt (c :: cs) with
      | some (q, _) => some q
      | none => findSignedNum cs

/-- Python `float()` applied to a string drawn from the class `[0-9.]+`:
defined iff the string has at least one digit and at most one dot. -/
def pyFloatOfDigitsDots (l : List Char) : Option ℚ :=
  if l.any Char.isDigit && (l.filter (· = '.')).length ≤ 1 then
    let ip := l.takeWhile Char.isDigit
    let r := l.drop ip.length
    match r with
    | '.' :: fp => some (decVal ip (fp.takeWhile Char.isDigit))
    | _ => some (decVal ip [])
  else none

/-- Python `int(s.replace(',', ''))` applied to a string drawn from the
class `[0-9,]+`: strip the commas, fail on the empty result. -/
def pyIntStripCommas (l : List Char) : Option Nat :=
  let ds := l.filter (· ≠ ',')
  if ds.isEmpty then none else some (digitsVal ds)

/-! ## Benchmark scores -/

/-- One benchmark entry: `{'name': ..., 'score': ..., 'category': ...}`. -/
structure Benchmark where
  name : String
  score : ℚ
  category : String
deriving DecidableEq, Repr

/-- Embeds `HuggingFaceScraper._categorize_benchmark`. -/
def hfCategorizeBenchmark (name : String) : String :=
  let nl := pyLower name
  if ["code", "swe", "humaneval", "livecode"].any (pySubstr · nl) then "coding"
  else if ["math", "gsm", "aime", "hmmt"].any (pySubstr · nl) then "reasoning"
  else if ["agent", "tool", "browse"].any (pySubstr · nl) then "agents"
  else if ["mmlu", "gpqa", "reasoning"].any (pySubstr · nl) then "reasoning"
  else "general"

/-- Embeds `LLMStatsScraper._categorize_benchmark`. -/
def llmstatsCategorizeBenchmark (name : String) : String :=
  let nl := pyLower name
  if ["code", "human", "swe", "live"].any (pySubstr · nl) then "coding"
  else if ["math", "gsm", "aime", "gpqa"].any (pySubstr · nl) then "reasoning"
  else if ["mmlu", "arc", "truthful", "winogrande"].any (pySubstr · nl) then "knowledge"
  else "general"

/-! ## Rendered-table collector: benchmark cells
(`LLMStatsScraper._parse_benchmarks_from_cells`) -/

/-- The fixed positional benchmark-name list of
`_parse_benchmarks_from_cells`. -/
def benchmarkNames : List String :=
  ["MMLU", "Arc-Challenge", "HellaSwag", "TruthfulQA", "Winogrande", "GSM8K",
   "GPQA", "AIME", "MATH", "HumanEval"]

/-- The name assigned to the percentage cell at score index `i`:
`benchmark_names[i]` while `i < len(benchmark_names)`, then the
synthetic `f"Benchmark_{i + 1}"`. -/
def benchName (i : Nat) : String :=
  if h : i < benchmarkNames.length then benchmarkNames.get ⟨i, h⟩
  else "Benchmark_" ++ toString (i + 1)

/-- Embeds `LLMStatsScraper._extract_score`: leftmost `-?\d+\.?\d*` in the cell. -/
def extractScore (cell : String) : Option ℚ := findSignedNum cell.data

/-- Embeds `LLMStatsScraper._extract_price`: the group of the leftmost
`\$?(\d+\.?\d*)` match, i.e. the leftmost unsigned numeric token. -/
def extractPrice (cell : String) : Option ℚ := findNum cell.data

/-- The cell loop of `_parse_benchmarks_from_cells`, carrying the running
`score_index`. -/
def parseBenchCellsAux : List String → Nat → List Benchmark
  | [], _ => []
  | cell :: rest, idx =>
    if cell.data.contains '%' then
      match extractScore cell with
      | some s =>
        { name := benchName idx, score := s,
          category := llmstatsCategorizeBenchmark (benchName idx) }
          :: parseBenchCellsAux rest (idx + 1)
      | none => parseBenchCellsAux rest idx
    else parseBenchCellsAux rest idx

/-- Embeds `LLMStatsScraper._parse_benchmarks_from_cells`. -/
def parseBenchmarksFromCells (cells : List String) : List Benchmark :=
  parseBenchCellsAux cells 0

/-! ## Markup extraction engine (`HuggingFaceScraper`)

A fetched model page, as the scraper sees it through BeautifulSoup:
the anchors, the relevant meta tags, the tables (as cell-text grids),
the flattened document text (`soup.text`), the paragraph texts, and the
raw HTML (some regexes run on `response.text` directly). -/

structure Anchor where
  href : String
  text : String
deriving DecidableEq, Repr

structure HFDoc where
  anchors : List Anchor := []
  metaLicense : Option String := none
  metaDescription : Option String := none
  tables : List (List (List String)) := []
  text : String := ""
  paragraphs : List String := []
  rawHtml : String := ""
deriving Repr

/-- Generic leftmost-match scan: try `f` at every suffix, left to right
(the semantics of `re.search`). -/
def searchBy {α : Type} (f : List Char → Option α) : List Char → Option α
  | [] => none
  | c :: cs =>
    match f (c :: cs) with
    | some x => some x
    | none => searchBy f cs

/-- The character class `[:\s]`. -/
def isColonSpace (c : Char) : Bool := c = ':' || pyIsSpace c

/-- The character class `[0-9.]`. -/
def isDigitDot (c : Char) : Bool := c.isDigit || c = '.'

/-- The character class `[0-9,]`. -/
def isDigitComma (c : Char) : Bool := c.isDigit || c = ','

/-- Match `license:\s*([^\n]+)` at the head of `l` and return the
stripped captured group (`_extract_license`'s YAML fallback).  When the
greedy `\s*` reaches the end of the input the regex backtracks into the
whitespace run; the group it then captures is pure whitespace and strips
to the empty string. -/
def matchLicenseAt (l : List Char) : Option String :=
  if "license:".data.isPrefixOf l then
    let r := l.drop 8
    let ws := r.takeWhile pyIsSpace
    let r₂ := r.drop ws.length
    if r₂.isEmpty then
      if ws.any (· ≠ '\n') then some "" else none
    else
      some (pyStrip ⟨r₂.takeWhile (· ≠ '\n')⟩)
  else none

/-- Embeds `HuggingFaceScraper._extract_license`: first an anchor whose href
matches `/license`, then a `<meta name="license">` tag, then the
`license: …` key-value pattern in the document text. -/
def extractLicense (doc : HFDoc) : Option String :=
  match doc.anchors.find? (fun a => pySubstr "/license" a.href) with
  | some a => some (pyStrip a.text)
  | none =>
    match doc.metaLicense with
    | some content => some (pyStrip content)
    | none => searchBy matchLicenseAt doc.text.data

/-- The fixed allow-list of open-source license substrings. -/
def openSourceLicenses : List String :=
  ["mit", "apache", "apache-2.0", "gpl", "bsd", "cc-by",
   "llama", "openrail", "bigscience", "deepseek"]

/-- Embeds `HuggingFaceScraper._is_open_source_license`. -/
def isOpenSourceLicense (licenseName : String) : Bool :=
  let ll := pyLower licenseName
  openSourceLicenses.any (fun oss => pySubstr oss ll)

/-- Match `context[_ ](?:window|length)[:\s]*([0-9,]+)` (IGNORECASE) at
the head of `l`; returns the captured group. -/
def matchContextAt (l : List Char) : Option (List Char) :=
  if ciStartsWith "context".data l then
    match l.drop 7 with
    | c :: r₂ =>
      if c = '_' || c = ' ' then
        let r₃ :=
          if ciStartsWith "window".data r₂ then some (r₂.drop 6)
          else if ciStartsWith "length".data r₂ then some (r₂.drop 6)
          else none
        match r₃ with
        | some r₄ =>
          let r₅ := r₄.drop (r₄.takeWhile isColonSpace).length
          let grp := r₅.takeWhile isDigitComma
          if grp.isEmpty then none else some grp
        | none => none
      else none
    | [] => none
  else none

/-- Embeds `HuggingFaceScraper._extract_metadata`'s context-window field: the
leftmost match, with thousands separators stripped; a failed integer
parse leaves the field unset. -/
def extractContextWindow (text : String) : Option Nat :=
  (searchBy matchContextAt text.data).bind pyIntStripCommas

/-- The table pass of `_extract_benchmarks`: every row of every table
with at least two cells yields a benchmark when its second cell contains
a leading numeric token. -/
def extractTableBenchmarks (tables : List (List (List String))) : List Benchmark :=
  tables.flatMap fun rows =>
    rows.flatMap fun cells =>
      match cells with
      | c₀ :: c₁ :: _ =>
        let nm := pyStrip c₀
        match findNum (pyStrip c₁).data with
        | some q => [{ name := nm, score := q, category := hfCategorizeBenchmark nm }]
        | none => []
      | _ => []

/-- One component of a named-benchmark pattern's name group. -/
inductive PatPart where
  | lit (s : String)
  | dashOrSpace
  | digitRun
deriving Repr

/-- Match one pattern part at the head of `l`, case-insensitively,
returning the matched characters in their original case. -/
def matchPartAt : PatPart → List Char → Option (List Char × List Char)
  | .lit s, l =>
    if ciStartsWith s.data l then some (l.take s.data.length, l.drop s.data.length) else none
  | .dashOrSpace, c :: cs =>
    if c = '-' || c = ' ' then some ([c], cs) else none
  | .dashOrSpace, [] => none
  | .digitRun, l =>
    let ds := l.takeWhile Char.isDigit
    if ds.isEmpty then none else some (ds, l.drop ds.length)

def matchPartsAt : List PatPart → List Char → Option (List Char × List Char)
  | [], l => some ([], l)
  | p :: ps, l =>
    match matchPartAt p l with
    | some (m, r) =>
      match matchPartsAt ps r with
      | some (ms, r₂) => some (m ++ ms, r₂)
      | none => none
    | none => none

/-- Match `(NAME)[:\s]+([0-9.]+)%?` at the head of `l`, where `NAME` is
given by `parts`; returns the name group, the score group, and the rest
of the input after the whole match. -/
def matchBenchPatAt (parts : List PatPart) (l : List Char) :
    Option (List Char × List Char × List Char) :=
  match matchPartsAt parts l with
  | some (nm, r) =>
    let sep := r.takeWhile isColonSpace
    if sep.isEmpty then none
    else
      let r₂ := r.drop sep.length
      let tok := r₂.takeWhile isDigitDot
      if tok.isEmpty then none
      else
        let r₃ := r₂.drop tok.length
        let r₄ := match r₃ with
          | '%' :: t => t
          | _ => r₃
        some (nm, tok, r₄)
  | none => none

/-- Embeds `re.finditer` for one named-benchmark pattern: scan left to right,
emit each non-overlapping match, resume after its end.  The fuel is an
upper bound on the number of steps; each step either consumes the head
character or a whole nonempty match. -/
def findAllBenchAux (parts : List PatPart) : Nat → List Char → List (List Char × List Char)
  | 0, _ => []
  | _ + 1, [] => []
  | fuel + 1, c :: cs =>
    match matchBenchPatAt parts (c :: cs) with
    | some (nm, tok, rest) => (nm, tok) :: findAllBenchAux parts fuel rest
    | none => findAllBenchAux parts fuel cs

def findAllBench (parts : List PatPart) (l : List Char) : List (List Char × List Char) :=
  findAllBenchAux parts l.length l

/-- The fixed named-benchmark patterns of `_extract_benchmarks_from_text`,
in source order. -/
def benchTextPatterns : List (List PatPart) :=
  [[.lit "MMLU", .dashOrSpace, .lit "Pro"],
   [.lit "GPQA", .dashOrSpace, .lit "Diamond"],
   [.lit "SWE", .dashOrSpace, .lit "bench"],
   [.lit "HumanEval"],
   [.lit "AIME", .dashOrSpace, .digitRun],
   [.lit "LiveCodeBench"],
   [.lit "GSM8K"]]

/-- Embeds `HuggingFaceScraper._extract_benchmarks_from_text`. -/
def extractBenchmarksFromText (text : String) : List Benchmark :=
  benchTextPatterns.flatMap fun parts =>
    (findAllBench parts text.data).filterMap fun (nm, tok) =>
      (pyFloatOfDigitsDots tok).map fun q =>
        let name := pyStrip ⟨nm⟩
        { name := name, score := q, category := hfCategorizeBenchmark name }

/-- The de-duplication key `key = (b['name'], b['score'])` of
`_extract_benchmarks`. -/
def benchPair (b : Benchmark) : String × ℚ := (b.name, b.score)

/-- The de-duplication pass at the end of `_extract_benchmarks`: keep the
first occurrence of each `(name, score)` pair. -/
def dedupBenchmarksAux (seen : List (String × ℚ)) : List Benchmark → List Benchmark
  | [] => []
  | b :: rest =>
    if benchPair b ∈ seen then dedupBenchmarksAux seen rest
    else b :: dedupBenchmarksAux (benchPair b :: seen) rest

/-- Embeds `HuggingFaceScraper._extract_benchmarks`: table pass, then text
pass, then de-duplication by `(name, score)` preserving first-seen
order. -/
def extractBenchmarks (doc : HFDoc) : List Benchmark :=
  dedupBenchmarksAux []
    (extractTableBenchmarks doc.tables ++ extractBenchmarksFromText doc.text)

/-- Embeds `HuggingFaceScraper._extract_description`: the meta description tag,
else the first of the first three paragraphs whose stripped text exceeds
50 characters, truncated to 500 characters. -/
def extractDescription (doc : HFDoc) : Option String :=
  match doc.metaDescription with
  | some content => some (pyStrip content)
  | none =>
    match (doc.paragraphs.take 3).find? (fun p => 50 < (pyStrip p).data.length) with
    | some p => some ⟨(pyStrip p).data.take 500⟩
    | none => none

/-- Match `([0-9,]+)\s*WORDs?` at the head of `l` (the downloads/likes
patterns); returns the captured count group. -/
def matchCountAt (word : List Char) (l : List Char) : Option (List Char) :=
  let grp := l.takeWhile isDigitComma
  if grp.isEmpty then none
  else
    let r := l.drop grp.length
    let r₂ := r.drop (r.takeWhile pyIsSpace).length
    if ciStartsWith word r₂ then some grp else none

/-- Embeds `_extract_stats`' downloads field: `([0-9,]+)\s*downloads?`. -/
def extractDownloads (text : String) : Option Nat :=
  (searchBy (matchCountAt "download".data) text.data).bind pyIntStripCommas

/-- Embeds `_extract_stats`' likes field: `([0-9,]+)\s*likes?`. -/
def extractLikes (text : String) : Option Nat :=
  (searchBy (matchCountAt "like".data) text.data).bind pyIntStripCommas

/-- Match the group `\d+\.?\d*[BMK]` (IGNORECASE) at the head of `l`;
returns the group characters in original case. -/
def matchNumBMK (l : List Char) : Option (List Char) :=
  let ip := l.takeWhile Char.isDigit
  if ip.isEmpty then none
  else
    let r := l.drop ip.length
    let (mid, r₂) :=
      match r with
      | '.' :: t =>
        let fp := t.takeWhile Char.isDigit
        ('.' :: fp, t.drop fp.length)
      | _ => ([], r)
    match r₂ with
    | c :: _ =>
      if c.toLower = 'b' || c.toLower = 'm' || c.toLower = 'k' then
        some (ip ++ mid ++ [c])
      else none
    | [] => none

/-- Match `(\d+\.?\d*[BMK])\s*parameters?` (IGNORECASE) at the head of `l`. -/
def matchParamsNumAt (l : List Char) : Option (List Char) :=
  match matchNumBMK l with
  | some grp =>
    let r := l.drop grp.length
    let r₂ := r.drop (r.takeWhile pyIsSpace).length
    if ciStartsWith "parameter".data r₂ then some grp else none
  | none => none

/-- Match `parameters?[:\s]+(\d+\.?\d*[BMK])` (IGNORECASE) at the head
of `l`. -/
def matchParamsWordAt (l : List Char) : Option (List Char) :=
  if ciStartsWith "parameter".data l then
    let r := l.drop 9
    let r₂ :=
      match r with
      | c :: t => if c.toLower = 's' then t else r
      | [] => r
    let sep := r₂.takeWhile isColonSpace
    if sep.isEmpty then none else matchNumBMK (r₂.drop sep.length)
  else none

/-- Embeds `HuggingFaceScraper._extract_parameters`: the two parameter patterns
tried in order on the raw HTML; the group is upper-cased. -/
def extractParameters (html : String) : Option String :=
  match searchBy matchParamsNumAt html.data with
  | some grp => some ⟨grp.map Char.toUpper⟩
  | none => (searchBy matchParamsWordAt html.data).map fun grp => ⟨grp.map Char.toUpper⟩

/-- Match the group `\d+\.\d+` at the head of `l`. -/
def matchDecimalPairAt (l : List Char) : Option (List Char) :=
  let ip := l.takeWhile Char.isDigit
  if ip.isEmpty then none
  else
    match l.drop ip.length with
    | '.' :: t =>
      let fp := t.takeWhile Char.isDigit
      if fp.isEmpty then none else some (ip ++ '.' :: fp)
    | _ => none

/-- Match `arxiv[:\s]+(\d+\.\d+)` (IGNORECASE) at the head of `l`. -/
def matchArxivAt (l : List Char) : Option (List Char) :=
  if ciStartsWith "arxiv".data l then
    let r := l.drop 5
    let sep := r.takeWhile isColonSpace
    if sep.isEmpty then none else matchDecimalPairAt (r.drop sep.length)
  else none

/-- Embeds `HuggingFaceScraper._extract_arxiv`: the `arxiv <id>` pattern in the
raw HTML, else the numeric id inside the first `arxiv.org` link. -/
def extractArxiv (doc : HFDoc) : Option String :=
  match searchBy matchArxivAt doc.rawHtml.data with
  | some grp => some ⟨grp⟩
  | none =>
    match doc.anchors.find? (fun a => pySubstr "arxiv.org" a.href) with
    | some a => (searchBy matchDecimalPairAt a.href.data).map fun grp => ⟨grp⟩
    | none => none

/-- One source's candidate record for an entity, as produced by
`HuggingFaceScraper._parse_model_page` (absent dict keys are `none`). -/
structure HFRecord where
  modelId : String
  modelName : String
  organization : String
  isOpenSource : Bool
  license : Option String := none
  contextWindow : Option Nat := none
  benchmarks : List Benchmark := []
  description : Option String := none
  downloads : Option Nat := none
  likes : Option Nat := none
  parameters : Option String := none
  arxivId : Option String := none
deriving DecidableEq, Repr

/-- Embeds `HuggingFaceScraper._parse_model_page`. -/
def parseModelPage (doc : HFDoc) (modelId : String) : HFRecord :=
  let license? := extractLicense doc
  let desc? := extractDescription doc
  { modelId := modelId
    modelName := (pySplitSlash modelId).getLastD ""
    organization := if pySubstr "/" modelId then (pySplitSlash modelId).headD "" else ""
    isOpenSource :=
      match license? with
      | some l => if l ≠ "" then isOpenSourceLicense l else false
      | none => false
    license :=
      match license? with
      | some l => if l ≠ "" then some l else none
      | none => none
    contextWindow := extractContextWindow doc.text
    benchmarks := extractBenchmarks doc
    description :=
      match desc? with
      | some d => if d ≠ "" then some d else none
      | none => none
    downloads := extractDownloads doc.text
    likes := extractLikes doc.text
    parameters := extractParameters doc.rawHtml
    arxivId := extractArxiv doc }

/-! ## Python dicts

The rendered-table records and the orchestrator's merged records are
Python dicts with string keys; we model them as insertion-ordered
association lists with dict-update semantics. -/

inductive Val where
  | str (s : String)
  | rat (q : ℚ)
  | nat (n : Nat)
  | bool (b : Bool)
  | null
  | benchList (l : List Benchmark)
deriving DecidableEq, Repr

def Val.ofStr? : Option String → Val
  | some s => .str s
  | _ => .null

def Val.ofNat? : Option Nat → Val
  | some n => .nat n
  | _ => .null

def Val.ofRat? : Option ℚ → Val
  | some q => .rat q
  | _ => .null

/-- Python truthiness of a value. -/
def Val.truthy : Val → Bool
  | .str s => s ≠ ""
  | .rat q => q ≠ 0
  | .nat n => n ≠ 0
  | .bool b => b
  | .null => false
  | .benchList l => !l.isEmpty

abbrev Dict := List (String × Val)

/-- Dict lookup, `d[k]` / `d.get(k)`. -/
def Dict.get : Dict → String → Option Val
  | [], _ => Option.none
  | e :: rest, k => if e.1 = k then some e.2 else Dict.get rest k

/-- Dict update, `d[k] = v`: overwrite in place if the key exists, else
append (Python dicts preserve insertion order, and the pipeline's dicts
are duplicate-free). -/
def Dict.set : Dict → String → Val → Dict
  | [], k, v => [(k, v)]
  | e :: rest, k, v => if e.1 = k then (k, v) :: rest else e :: Dict.set rest k v

/-- Dict lookup of a string value, `d.get(k, '')` where the value is a
string. -/
def Dict.getStr (d : Dict) (k : String) : String :=
  match d.get k with
  | some (.str s) => s
  | _ => ""

/-- Python truthiness of `d.get(k)` (missing keys are falsy). -/
def Dict.truthyAt (d : Dict) (k : String) : Bool :=
  match d.get k with
  | some v => v.truthy
  | _ => false

/-! ## Rendered-table collector: row extraction
(`LLMStatsScraper._extract_model_from_row` and friends) -/

/-- The hard-coded organization-alias table of `_extract_model_id`, in
source order. -/
def orgMapping : List (String × String) :=
  [("glm", "THUDM"), ("kimi", "MoonshotAI"), ("mimo", "AIDC-AI"), ("qwen", "Qwen"),
   ("yi", "01-ai"), ("deepseek", "deepseek-ai"),
   ("llama", "meta-llama"), ("mistral", "mistralai"), ("mixtral", "mistralai"),
   ("gemma", "google"), ("gemini", "google"), ("phi", "microsoft"),
   ("gpt", "openai"), ("claude", "anthropic"),
   ("nemotron", "nvidia"), ("hermes", "NousResearch"), ("nous", "NousResearch"),
   ("solar", "upstage"), ("commandr", "CohereForAI"), ("aya", "CohereForAI")]

/-- Embeds `LLMStatsScraper._extract_model_id`. -/
def extractModelId (modelName : String) : String :=
  if pySubstr "/" modelName then modelName
  else
    let nl := pyLower modelName
    match orgMapping.find? (fun p => pySubstr p.1 nl) with
    | some p => p.2 ++ "/" ++ modelName
    | Option.none => "unknown/" ++ modelName

/-- The model-name loop of `_extract_model_from_row`: the first cell
longer than two characters, without a `$`, not purely numeric, and
containing an alphanumeric character; `NEW` badges are removed and the
result stripped.  Returns the name and the index of its cell. -/
def findModelName : List String → Nat → Option (String × Nat)
  | [], _ => Option.none
  | c :: rest, i =>
    if 2 < c.data.length && !(c.data.contains '$') && !(pyIsDigitStr c)
        && c.data.any Char.isAlphanum then
      some (pyStrip ⟨removeNEW c.data⟩, i)
    else findModelName rest (i + 1)

/-- Embeds `LLMStatsScraper._extract_parameters_from_cells`: the first purely
numeric cell whose value lies in `1..1000`, rendered as `"{n}B"`. -/
def extractParametersFromCells : List String → Option String
  | [] => Option.none
  | c :: rest =>
    if pyIsDigitStr c then
      let num := digitsVal c.data
      if 1 ≤ num && num ≤ 1000 then some (toString num ++ "B")
      else extractParametersFromCells rest
    else extractParametersFromCells rest

/-- Embeds `LLMStatsScraper._extract_model_from_row`, from the cleaned cell
texts of one row to the row's record (`None` for discarded rows). -/
def extractModelFromRow (cellValues : List String) : Option Dict :=
  if cellValues.length < 2 then Option.none
  else
    match findModelName cellValues 0 with
    | Option.none => Option.none
    | some (modelName, idx) =>
      if modelName.data.length < 2 then Option.none
      else if ["rank", "model", "position", "name"].any
          (fun x => pySubstr x (pyLower modelName)) then Option.none
      else
        let inputPrice :=
          match cellValues.get? (idx + 1) with
          | some p => if p.data.contains '$' then extractPrice p else Option.none
          | Option.none => Option.none
        let outputPrice :=
          match cellValues.get? (idx + 2) with
          | some p => if p.data.contains '$' then extractPrice p else Option.none
          | Option.none => Option.none
        let modelId := extractModelId modelName
        some [("model_id", .str modelId),
              ("model_name", .str modelName),
              ("organization",
                .str (if pySubstr "/" modelId then (pySplitSlash modelId).headD ""
                      else "unknown")),
              ("benchmarks", .benchList (parseBenchmarksFromCells cellValues)),
              ("source", .str "llm-stats.com"),
              ("is_open_source", .bool true),
              ("input_price_per_1m", Val.ofRat? inputPrice),
              ("output_price_per_1m", Val.ofRat? outputPrice),
              ("parameters", Val.ofStr? (extractParametersFromCells cellValues))]

/-- Embeds `LLMStatsScraper._normalize_json_model` (the JSON-in-markup fallback
path), given the name resolved from the JSON item's `model`/`name`/
`modelId` keys. -/
def normalizeJsonModel (modelName : String) : Dict :=
  [("model_id", .str (extractModelId modelName)),
   ("model_name", .str modelName),
   ("organization",
     .str (if pySubstr "/" modelName then (pySplitSlash modelName).headD ""
           else "unknown")),
   ("benchmarks", .benchList []),
   ("source", .str "llm-stats.com"),
   ("is_open_source", .bool true)]

/-! ## Rate-limited fetch client (`HuggingFaceScraper.scrape_model`)

One fetch attempt, as a transition on the scraper's identifier→result
cache.  The network is abstracted as the outcome the HTTP client would
deliver for this request; `requestIssued` records whether the attempt
reached the network at all. -/

inductive FetchOutcome where
  | status (code : Nat) (doc : HFDoc)
  | httpError (msg : String)
  | otherError (msg : String)
deriving Repr

abbrev HFCache := List (String × Option HFRecord)

def cacheLookup : HFCache → String → Option (Option HFRecord)
  | [], _ => Option.none
  | e :: rest, k => if e.1 = k then some e.2 else cacheLookup rest k

structure FetchStep where
  result : Option HFRecord
  cache : HFCache
  requestIssued : Bool
deriving Repr

/-- Embeds `HuggingFaceScraper.scrape_model`: a cache hit returns the cached
value (a 404 is cached as `None`) without touching the network;
otherwise the request is issued and a 404 is cached as `None`, a 429
backs off and returns `None` uncached, any other error status raises
and is swallowed to `None` uncached, and a success is parsed and
cached. -/
def scrapeModel (cache : HFCache) (modelId : String) (outcome : FetchOutcome) : FetchStep :=
  match cacheLookup cache modelId with
  | some cached => ⟨cached, cache, false⟩
  | Option.none =>
    match outcome with
    | .status code doc =>
      if code = 404 then ⟨Option.none, (modelId, Option.none) :: cache, true⟩
      else if code = 429 then ⟨Option.none, cache, true⟩
      else if 400 ≤ code then ⟨Option.none, cache, true⟩
      else
        let r := parseModelPage doc modelId
        ⟨some r, (modelId, some r) :: cache, true⟩
    | .httpError _ => ⟨Option.none, cache, true⟩
    | .otherError _ => ⟨Option.none, cache, true⟩

/-- Embeds `dict.fromkeys` de-duplication: first occurrences, order preserved. -/
def dedupIds (l : List String) : List String := go l []
where
  go : List String → List String → List String
  | [], _ => []
  | x :: xs, seen => if x ∈ seen then go xs seen else x :: go xs (x :: seen)

/-- Embeds `HuggingFaceScraper.scrape_models_batch`, with the per-identifier
fetch result abstracted as a function: identifiers are de-duplicated
order-preservingly, each unique identifier is fetched once (the batching
in threes only paces the requests; `gather` keeps batch order and the
results of successive batches are concatenated), and `None` results are
dropped. -/
def scrapeModelsBatch (fetch : String → Option HFRecord) (modelIds : List String) :
    List HFRecord :=
  (dedupIds modelIds).filterMap fetch

/-! ## Fusion orchestrator (`LLMStatsOrchestrator`) -/

/-- Association-list upsert with Python dict-comprehension semantics
(later duplicates overwrite earlier ones in place). -/
def hfMapUpsert : List (String × HFRecord) → String → HFRecord →
    List (String × HFRecord)
  | [], k, v => [(k, v)]
  | e :: rest, k, v => if e.1 = k then (k, v) :: rest else e :: hfMapUpsert rest k v

/-- Embeds `{m['model_id']: m for m in hf_models if m.get('model_id')}`. -/
def buildHfMap (hfModels : List HFRecord) : List (String × HFRecord) :=
  hfModels.foldl (fun m h => if h.modelId ≠ "" then hfMapUpsert m h.modelId h else m) []

def hfMapGet : List (String × HFRecord) → String → Option HFRecord
  | [], _ => Option.none
  | e :: rest, k => if e.1 = k then some e.2 else hfMapGet rest k

/-- The per-model merge step of
`LLMStatsOrchestrator._enrich_with_huggingface`: when HuggingFace data
exists for the model's identifier, the llm-stats record is kept and the
HuggingFace fields are added under `hf_`-prefixed keys (the HuggingFace
benchmark list, when nonempty, under `hf_benchmarks`); otherwise only
`hf_url` is added. -/
def enrichModel (hfMap : List (String × HFRecord)) (model : Dict) : Dict :=
  let modelId := model.getStr "model_id"
  match hfMapGet hfMap modelId with
  | some hf =>
    let merged :=
      ((((((((model.set "hf_license" (Val.ofStr? hf.license)
        ).set "hf_parameters" (Val.ofStr? hf.parameters)
        ).set "hf_context_window" (Val.ofNat? hf.contextWindow)
        ).set "hf_downloads" (Val.ofNat? hf.downloads)
        ).set "hf_likes" (Val.ofNat? hf.likes)
        ).set "hf_created_at" Val.null
        ).set "hf_last_modified" Val.null
        ).set "hf_url" (.str ("https://huggingface.co/" ++ modelId)))
    if hf.benchmarks.isEmpty then merged
    else merged.set "hf_benchmarks" (.benchList hf.benchmarks)
  | Option.none => model.set "hf_url" (.str ("https://huggingface.co/" ++ modelId))

/-- Embeds `LLMStatsOrchestrator._enrich_with_huggingface`: collect the truthy
`model_id`s, batch-fetch them from HuggingFace, key the results by their
`model_id`, and merge each llm-stats record with its HuggingFace data. -/
def enrichWithHuggingface (fetch : String → Option HFRecord) (models : List Dict) :
    List Dict :=
  let modelIds := models.filterMap fun m =>
    match m.get "model_id" with
    | some (.str s) => if s ≠ "" then some s else Option.none
    | _ => Option.none
  let hfMap := buildHfMap (scrapeModelsBatch fetch modelIds)
  models.map (enrichModel hfMap)

/-- The snapshot metadata block of `LLMStatsOrchestrator._save_data`. -/
structure SourceMetadata where
  primarySource : String
  secondarySource : String
  hfEnrichedCount : Nat
  totalBenchmarks : Nat
  openSourceOnly : Bool
deriving DecidableEq, Repr

/-- The snapshot object `LLMStatsOrchestrator._save_data` serializes. -/
structure Snapshot where
  models : List Dict
  totalCount : Nat
  lastUpdated : String
  metadata : SourceMetadata
deriving Repr

/-- Embeds `len(m.get('benchmarks', []))`. -/
def benchCount (m : Dict) : Nat :=
  match m.get "benchmarks" with
  | some (.benchList l) => l.length
  | _ => 0

/-- Embeds `m.get('hf_license') or m.get('hf_benchmarks')` as a Bool. -/
def hasEnrichment (m : Dict) : Bool :=
  m.truthyAt "hf_license" || m.truthyAt "hf_benchmarks"

/-- The snapshot `LLMStatsOrchestrator._save_data models` builds (the
timestamp is passed in for `datetime.now().isoformat()`). -/
def llmstatsSaveSnapshot (models : List Dict) (now : String) : Snapshot :=
  { models := models
    totalCount := models.length
    lastUpdated := now
    metadata :=
      { primarySource := "llm-stats.com"
        secondarySource := "HuggingFace"
        hfEnrichedCount := (models.filter hasEnrichment).length
        totalBenchmarks := (models.map benchCount).sum
        openSourceOnly := true } }

/-- The snapshot object `SimpleOrchestrator._save_data` serializes. -/
structure SimpleSnapshot where
  models : List Dict
  totalCount : Nat
  lastUpdated : String
  source : String
  openSourceOnly : Bool
deriving Repr

/-- The snapshot `SimpleOrchestrator._save_data models` builds. -/
def simpleSaveSnapshot (models : List Dict) (now : String) : SimpleSnapshot :=
  { models := models
    totalCount := models.length
    lastUpdated := now
    source := "HuggingFace"
    openSourceOnly := true }

/-- Embeds `LLMStatsOrchestrator.collect_all_data`, with the two collectors'
results abstracted: `scraped` is what `scrape_leaderboard` returned
(empty on a render timeout) and `fetch` the per-identifier HuggingFace
result.  Returns the models the run yields and the snapshot it commits,
if any: an empty leaderboard result returns `[]` at once, without
enrichment and without saving. -/
def collectAllData (scraped : List Dict) (fetch : String → Option HFRecord)
    (enrichWithHf : Bool) (now : String) : List Dict × Option Snapshot :=
  if scraped.isEmpty then ([], Option.none)
  else
    let models := if enrichWithHf then enrichWithHuggingface fetch scraped else scraped
    (models, some (llmstatsSaveSnapshot models now))

/-! ## Snapshot persistence as file-system operations

What `_save_data` does to the file system, step by step, so that the
effect of an interruption mid-save can be stated.  `open(path, 'w')`
truncates the target in place; `json.dump` then writes the serialized
snapshot into it. -/

inductive FsOp where
  | openTrunc (path : String)
  | writeAll (path : String) (data : String)
  | rename (src dst : String)
deriving DecidableEq, Repr

abbrev FileSys := List (String × String)

def fsGet : FileSys → String → Option String
  | [], _ => Option.none
  | e :: rest, p => if e.1 = p then some e.2 else fsGet rest p

def fsSet : FileSys → String → String → FileSys
  | [], p, c => [(p, c)]
  | e :: rest, p, c => if e.1 = p then (p, c) :: rest else e :: fsSet rest p c

def fsRemove (fs : FileSys) (p : String) : FileSys :=
  fs.filter (fun e => !(e.1 == p))

def applyFsOp (fs : FileSys) : FsOp → FileSys
  | .openTrunc p => fsSet fs p ""
  | .writeAll p d => fsSet fs p (((fsGet fs p).getD "") ++ d)
  | .rename src dst =>
    match fsGet fs src with
    | some c => fsSet (fsRemove fs src) dst c
    | Option.none => fs

def runFsOps (fs : FileSys) (ops : List FsOp) : FileSys :=
  ops.foldl applyFsOp fs

/-- The file operations both orchestrators' `_save_data` perform on the
snapshot path: truncate the target in place, then write the serialized
snapshot into it.  No temporary file, no rename. -/
def saveDataFsOps (target payload : String) : List FsOp :=
  [.openTrunc target, .writeAll target payload]

/-- The document of the specification's extraction scenario: one HTML
table row `["MMLU", "85.5%"]` and the text `license: apache-2.0` (the
table's own text is part of `soup.text`). -/
def scenarioDoc : HFDoc :=
  { tables := [[["MMLU", "85.5%"]]]
    text := "MMLU 85.5% license: apache-2.0" }

/-! ## Helper lemmas -/

theorem fsGet_fsSet (fs : FileSys) (p c : String) : fsGet (fsSet fs p c) p = some c := by
  induction fs with
  | nil => simp [fsGet, fsSet]
  | cons e rest ih =>
    by_cases h : e.1 = p <;> simp [fsGet, fsSet, h, ih]

theorem string_empty_append (s : String) : "" ++ s = s := by
  cases s
  rfl

theorem Dict.get_set_self (d : Dict) (k : String) (v : Val) :
    (d.set k v).get k = some v := by
  induction d with
  | nil => simp [Dict.get, Dict.set]
  | cons e rest ih =>
    by_cases h : e.1 = k <;> simp [Dict.get, Dict.set, h, ih]

theorem Dict.get_set_ne (d : Dict) (k k' : String) (v : Val) (h : k' ≠ k) :
    (d.set k v).get k' = d.get k' := by
  induction d with
  | nil =>
    simp only [Dict.set, Dict.get]
    rw [if_neg (Ne.symm h)]
  | cons e rest ih =>
    by_cases he : e.1 = k
    · simp only [Dict.set, if_pos he, Dict.get]
      rw [if_neg (Ne.symm h), if_neg (fun hh : e.1 = k' => h (hh.symm.trans he))]
    · simp only [Dict.set, if_neg he, Dict.get, ih]

theorem cacheLookup_cons_self (cache : HFCache) (k : String) (x : Option HFRecord) :
    cacheLookup ((k, x) :: cache) k = some x := by
  simp [cacheLookup]

theorem scrapeModel_cached (cache : HFCache) (modelId : String) (outcome : FetchOutcome)
    (c : Option HFRecord) (h : cacheLookup cache modelId = some c) :
    scrapeModel cache modelId outcome = ⟨c, cache, false⟩ := by
  unfold scrapeModel
  rw [h]

theorem scrapeModel_notFound (cache : HFCache) (modelId : String) (doc : HFDoc)
    (h : cacheLookup cache modelId = Option.none) :
    scrapeModel cache modelId (.status 404 doc) =
      ⟨Option.none, (modelId, Option.none) :: cache, true⟩ := by
  unfold scrapeModel
  rw [h]
  rfl

theorem scrapeModel_success (cache : HFCache) (modelId : String) (doc : HFDoc)
    (code : Nat) (hc : cacheLookup cache modelId = Option.none) (h4 : code < 400) :
    scrapeModel cache modelId (.status code doc) =
      ⟨some (parseModelPage doc modelId),
       (modelId, some (parseModelPage doc modelId)) :: cache, true⟩ := by
  unfold scrapeModel
  rw [hc]
  simp only
  rw [if_neg (by omega), if_neg (by omega), if_neg (by omega)]

/-! ### Decimal printing of naturals

Lean renders the synthetic `Benchmark_{n}` names with `Nat.repr`, as
Python's f-string renders them with `str(n)`; distinct indices give
distinct names because decimal printing is injective. -/

/-- Structural-recursion form of the decimal digits of `n`. -/
def decDigits (n : Nat) : List Char :=
  if h : n / 10 = 0 then [Nat.digitChar (n % 10)]
  else decDigits (n / 10) ++ [Nat.digitChar (n % 10)]
termination_by n
decreasing_by
  exact Nat.div_lt_self (Nat.pos_of_ne_zero fun h0 => h (by simp [h0])) (by norm_num)

theorem toDigitsCore_eq_decDigits :
    ∀ (fuel n : Nat) (acc : List Char), n < fuel →
      Nat.toDigitsCore 10 fuel n acc = decDigits n ++ acc := by
  intro fuel
  induction fuel with
  | zero => intro n acc h; omega
  | succ f ih =>
    intro n acc h
    by_cases h10 : n / 10 = 0
    · rw [Nat.toDigitsCore, if_pos h10, decDigits, dif_pos h10]
      rfl
    · rw [Nat.toDigitsCore, if_neg h10]
      have hlt : n / 10 < f := by
        have h1 : n / 10 < n :=
          Nat.div_lt_self (Nat.pos_of_ne_zero fun h0 => h10 (by simp [h0])) (by norm_num)
        omega
      rw [ih (n / 10) _ hlt]
      conv_rhs => rw [decDigits]
      rw [dif_neg h10, List.append_assoc]
      rfl

theorem digitChar_toNat (d : Nat) (h : d < 10) : (Nat.digitChar d).toNat = 48 + d := by
  interval_cases d <;> rfl

theorem digitsVal_append_single (l : List Char) (c : Char) :
    digitsVal (l ++ [c]) = 10 * digitsVal l + (c.toNat - 48) := by
  simp [digitsVal, List.foldl_append]

theorem digitsVal_decDigits (n : Nat) : digitsVal (decDigits n) = n := by
  induction n using Nat.strong_induction_on with
  | _ n ih =>
    by_cases h10 : n / 10 = 0
    · rw [decDigits, dif_pos h10]
      have hm : n % 10 < 10 := Nat.mod_lt _ (by norm_num)
      simp [digitsVal, digitChar_toNat _ hm]
      omega
    · rw [decDigits, dif_neg h10]
      have hlt : n / 10 < n :=
        Nat.div_lt_self (Nat.pos_of_ne_zero fun h0 => h10 (by simp [h0])) (by norm_num)
      rw [digitsVal_append_single, ih _ hlt,
        digitChar_toNat _ (Nat.mod_lt _ (by norm_num))]
      omega

theorem natRepr_injective : Function.Injective Nat.repr := by
  intro m n h
  have hm : Nat.repr m = (decDigits m).asString := by
    show (Nat.toDigits 10 m).asString = _
    rw [Nat.toDigits, toDigitsCore_eq_decDigits (m + 1) m [] (Nat.lt_succ_self m),
      List.append_nil]
  have hn : Nat.repr n = (decDigits n).asString := by
    show (Nat.toDigits 10 n).asString = _
    rw [Nat.toDigits, toDigitsCore_eq_decDigits (n + 1) n [] (Nat.lt_succ_self n),
      List.append_nil]
  rw [hm, hn] at h
  have hd : decDigits m = decDigits n := congrArg String.data h
  have := digitsVal_decDigits m
  rw [hd, digitsVal_decDigits] at this
  omega

theorem string_data_append (a b : String) : (a ++ b).data = a.data ++ b.data := rfl

theorem benchName_injective : Function.Injective benchName := by
  have hB : ∀ s ∈ benchmarkNames, s.data.head? ≠ some 'B' := by decide
  have hBench : ∀ j : Nat, ("Benchmark_" ++ toString (j + 1)).data.head? = some 'B' :=
    fun j => rfl
  have hnd : benchmarkNames.Nodup := by decide
  intro i j h
  unfold benchName at h
  by_cases hi : i < benchmarkNames.length <;> by_cases hj : j < benchmarkNames.length
  · rw [dif_pos hi, dif_pos hj] at h
    exact congrArg Fin.val (hnd.get_inj_iff.mp h)
  · rw [dif_pos hi, dif_neg hj] at h
    have hhd : (benchmarkNames.get ⟨i, hi⟩).data.head? = some 'B' := by
      rw [h]
      exact hBench j
    exact absurd hhd (hB _ (benchmarkNames.get_mem _ _))
  · rw [dif_neg hi, dif_pos hj] at h
    have hhd : (benchmarkNames.get ⟨j, hj⟩).data.head? = some 'B' := by
      rw [← h]
      exact hBench i
    exact absurd hhd (hB _ (benchmarkNames.get_mem _ _))
  · rw [dif_neg hi, dif_neg hj] at h
    have hd := congrArg String.data h
    rw [string_data_append, string_data_append] at hd
    have ht : toString (i + 1) = toString (j + 1) :=
      congrArg String.mk (List.append_cancel_left hd)
    have := natRepr_injective ht
    omega

/-! ### De-duplication and positional naming lemmas -/

theorem dedupAux_sublist (l : List Benchmark) (seen : List (String × ℚ)) :
    List.Sublist (dedupBenchmarksAux seen l) l := by
  induction l generalizing seen with
  | nil => simp [dedupBenchmarksAux]
  | cons b rest ih =>
    unfold dedupBenchmarksAux
    by_cases hm : benchPair b ∈ seen
    · rw [if_pos hm]
      exact (ih seen).cons b
    · rw [if_neg hm]
      exact (ih _).cons₂ b

theorem dedupAux_pairs (l : List Benchmark) (seen : List (String × ℚ)) :
    ((dedupBenchmarksAux seen l).map benchPair).Nodup ∧
    ∀ p ∈ (dedupBenchmarksAux seen l).map benchPair, p ∉ seen := by
  induction l generalizing seen with
  | nil => simp [dedupBenchmarksAux]
  | cons b rest ih =>
    unfold dedupBenchmarksAux
    by_cases hm : benchPair b ∈ seen
    · rw [if_pos hm]
      exact ih seen
    · rw [if_neg hm]
      obtain ⟨ihn, ihs⟩ := ih (benchPair b :: seen)
      refine ⟨?_, ?_⟩
      · simp only [List.map_cons, List.nodup_cons]
        exact ⟨fun hmem => (ihs _ hmem) (List.mem_cons_self _ _), ihn⟩
      · intro p hp
        simp only [List.map_cons, List.mem_cons] at hp
        rcases hp with rfl | hp
        · exact hm
        · exact fun hps => (ihs p hp) (List.mem_cons_of_mem _ hps)

theorem dedupAux_complete (l : List Benchmark) (seen : List (String × ℚ)) :
    ∀ b ∈ l, benchPair b ∉ seen →
      benchPair b ∈ (dedupBenchmarksAux seen l).map benchPair := by
  induction l generalizing seen with
  | nil => simp
  | cons a rest ih =>
    intro b hb hbs
    unfold dedupBenchmarksAux
    by_cases hm : benchPair a ∈ seen
    · rw [if_pos hm]
      rcases List.mem_cons.mp hb with rfl | hb
      · exact absurd hm hbs
      · exact ih seen b hb hbs
    · rw [if_neg hm]
      rcases List.mem_cons.mp hb with rfl | hb
      · simp
      · by_cases hps : benchPair b ∈ benchPair a :: seen
        · rcases List.mem_cons.mp hps with heq | hps
          · simp [heq]
          · exact absurd hps hbs
        · simp only [List.map_cons, List.mem_cons]
          exact Or.inr (ih _ b hb hps)

theorem parseBenchCellsAux_name_ge (cells : List String) (idx : Nat) :
    ∀ b ∈ parseBenchCellsAux cells idx, ∃ j, idx ≤ j ∧ b.name = benchName j := by
  induction cells generalizing idx with
  | nil => simp [parseBenchCellsAux]
  | cons c rest ih =>
    intro b hb
    unfold parseBenchCellsAux at hb
    split at hb
    · split at hb
      · rcases List.mem_cons.mp hb with rfl | hb
        · exact ⟨idx, le_refl idx, rfl⟩
        · obtain ⟨j, hj, hn⟩ := ih (idx + 1) b hb
          exact ⟨j, by omega, hn⟩
      · exact ih idx b hb
    · exact ih idx b hb

theorem parseBenchCellsAux_names_nodup (cells : List String) (idx : Nat) :
    ((parseBenchCellsAux cells idx).map Benchmark.name).Nodup := by
  induction cells generalizing idx with
  | nil => simp [parseBenchCellsAux]
  | cons c rest ih =>
    unfold parseBenchCellsAux
    split
    · split
      · simp only [List.map_cons, List.nodup_cons]
        refine ⟨fun hmem => ?_, ih (idx + 1)⟩
        obtain ⟨b, hb, hn⟩ := List.mem_map.mp hmem
        obtain ⟨j, hj, hn'⟩ := parseBenchCellsAux_name_ge rest (idx + 1) b hb
        have : j = idx := benchName_injective (by rw [← hn', hn])
        omega
      · exact ih idx
    · exact ih idx

theorem nodup_pairs_of_nodup_names (l : List Benchmark)
    (h : (l.map Benchmark.name).Nodup) : (l.map benchPair).Nodup := by
  have he : l.map Benchmark.name = (l.map benchPair).map Prod.fst := by
    simp [benchPair, Function.comp_def]
  rw [he] at h
  exact h.of_map _

/-! ## The claims -/

/-- C9: for every snapshot written by a run (by either orchestrator's
`_save_data`), the top-level `total_count` field equals the length of
the `models` array. -/
theorem snapshotTotalCount (models : List Dict) (now : String) :
    (llmstatsSaveSnapshot models now).totalCount =
      (llmstatsSaveSnapshot models now).models.length ∧
    (simpleSaveSnapshot models now).totalCount =
      (simpleSaveSnapshot models now).models.length :=
  ⟨rfl, rfl⟩

/-- C2 (counterexample): the snapshot commit is not atomic.  With the
previously committed snapshot `"OLD_SNAPSHOT"` on disk, interrupting
`_save_data` after its first file operation (the truncating `open`)
leaves the target empty — the previously committed snapshot is
destroyed, and what is visible is neither the old nor the new
snapshot. -/
theorem saveInterruptionCounterexample :
    fsGet (runFsOps [("models.json", "OLD_SNAPSHOT")]
        ((saveDataFsOps "models.json" "NEW_SNAPSHOT").take 1)) "models.json" = some "" ∧
    some "" ≠ some "OLD_SNAPSHOT" ∧ some "" ≠ some "NEW_SNAPSHOT" := by
  refine ⟨rfl, by decide, by decide⟩

/-- C2 (amended): `_save_data` writes the serialized snapshot directly
onto the target — it truncates the target in place and then writes,
using no temporary location and no rename; an interruption between the
truncation and the completed write leaves the target empty rather than
holding the previously committed snapshot, and only an uninterrupted
save leaves the complete new snapshot. -/
theorem saveDirectWriteAmended (fs : FileSys) (target payload : String) :
    ((saveDataFsOps target payload).all fun op =>
        match op with
        | .rename _ _ => false
        | _ => true) = true ∧
    fsGet (runFsOps fs ((saveDataFsOps target payload).take 1)) target = some "" ∧
    fsGet (runFsOps fs (saveDataFsOps target payload)) target = some payload := by
  refine ⟨rfl, ?_, ?_⟩
  · simp [saveDataFsOps, runFsOps, applyFsOp, fsGet_fsSet]
  · simp [saveDataFsOps, runFsOps, applyFsOp, fsGet_fsSet, string_empty_append]

/-- C5 (counterexample): when the rendered-table collector returns an
empty sequence (e.g. after a render timeout), `collect_all_data` does
not continue with the other sources and produces no snapshot at all: it
returns an empty model list and never reaches `_save_data`. -/
theorem emptyScrapeAbortsCounterexample :
    collectAllData [] (fun _ => Option.none) true "2026-10-12T00:00:00" =
      ([], Option.none) := rfl

/-- C5 (amended): when the rendered-table collector returns an empty
sequence the run stops at once, returning an empty model list and
committing no snapshot (the previously committed snapshot stays in
place); when the collector returns a nonempty sequence, per-identifier
enrichment failures are contained — whatever the HuggingFace fetches
return, a snapshot of the resulting models (annotated with enrichment
counts by `_save_data`) is always committed. -/
theorem runContinuationAmended :
    (∀ (fetch : String → Option HFRecord) (e : Bool) (now : String),
      collectAllData [] fetch e now = ([], Option.none)) ∧
    ∀ (scraped : List Dict) (fetch : String → Option HFRecord) (e : Bool) (now : String),
      scraped ≠ [] →
        (collectAllData scraped fetch e now).2 =
          some (llmstatsSaveSnapshot (collectAllData scraped fetch e now).1 now) := by
  constructor
  · intro fetch e now
    rfl
  · intro scraped fetch e now h
    simp [collectAllData, h]

/-- Witness for `runContinuationAmended` at a one-record leaderboard
result and an always-failing HuggingFace fetch. -/
theorem runContinuationAmendedWitness :
    (collectAllData [[("model_id", Val.str "acme/foo-7b")]]
        (fun _ => Option.none) true "t").2 =
      some (llmstatsSaveSnapshot
        (collectAllData [[("model_id", Val.str "acme/foo-7b")]]
          (fun _ => Option.none) true "t").1 "t") :=
  runContinuationAmended.2 _ _ _ _ (by decide)

/-- C8: the rendered-collector row
`["🇺🇸", "Llama-3-70B", "$0.60", "$0.80", "85.2%", "73.1%"]` yields the
model name `"Llama-3-70B"` (the two-character flag cell is skipped),
input price `0.60`, output price `0.80`, and exactly two benchmarks with
scores `85.2` and `73.1` named positionally from the head of the fixed
benchmark-name list. -/
theorem renderedRowScenario :
    extractModelFromRow ["🇺🇸", "Llama-3-70B", "$0.60", "$0.80", "85.2%", "73.1%"] =
      some [("model_id", .str "meta-llama/Llama-3-70B"),
            ("model_name", .str "Llama-3-70B"),
            ("organization", .str "meta-llama"),
            ("benchmarks", .benchList
              [{ name := "MMLU", score := 85.2, category := "knowledge" },
               { name := "Arc-Challenge", score := 73.1, category := "knowledge" }]),
            ("source", .str "llm-stats.com"),
            ("is_open_source", .bool true),
            ("input_price_per_1m", .rat 0.60),
            ("output_price_per_1m", .rat 0.80),
            ("parameters", Val.null)] ∧
    benchmarkNames.get? 0 = some "MMLU" ∧ benchmarkNames.get? 1 = some "Arc-Challenge" := by
  have h852 : decVal ['8', '5'] ['2'] = (85.2 : ℚ) := by
    simp only [decVal, (by decide : digitsVal ['8', '5'] = 85),
      (by decide : digitsVal ['2'] = 2)]
    norm_num
  have h731 : decVal ['7', '3'] ['1'] = 73.1 := by
    simp only [decVal, (by decide : digitsVal ['7', '3'] = 73),
      (by decide : digitsVal ['1'] = 1)]
    norm_num
  have h060 : decVal ['0'] ['6', '0'] = 0.60 := by
    simp only [decVal, (by decide : digitsVal ['0'] = 0),
      (by decide : digitsVal ['6', '0'] = 60)]
    norm_num
  have h080 : decVal ['0'] ['8', '0'] = 0.80 := by
    simp only [decVal, (by decide : digitsVal ['0'] = 0),
      (by decide : digitsVal ['8', '0'] = 80)]
    norm_num
  refine ⟨?_, rfl, rfl⟩
  rw [← h852, ← h731, ← h060, ← h080]
  rfl

/-- C1 (counterexample): extraction for `"acme/foo-7b"` on the scenario
document does yield `is_open_source = true` and exactly one benchmark
named `MMLU` with score `85.5`, but its category is `"reasoning"`, not
`"knowledge"`: `HuggingFaceScraper._categorize_benchmark` classifies
`mmlu` names in a branch returning `"reasoning"` and has no branch
returning `"knowledge"`. -/
theorem mmluCategoryCounterexample :
    (parseModelPage scenarioDoc "acme/foo-7b").isOpenSource = true ∧
    (parseModelPage scenarioDoc "acme/foo-7b").benchmarks =
      [{ name := "MMLU", score := 85.5, category := "reasoning" }] ∧
    (parseModelPage scenarioDoc "acme/foo-7b").benchmarks.map Benchmark.category =
      ["reasoning"] ∧
    (["reasoning"] : List String) ≠ ["knowledge"] := by
  have h855 : decVal ['8', '5'] ['5'] = (85.5 : ℚ) := by
    simp only [decVal, (by decide : digitsVal ['8', '5'] = 85),
      (by decide : digitsVal ['5'] = 5)]
    norm_num
  have hb : (parseModelPage scenarioDoc "acme/foo-7b").benchmarks =
      [{ name := "MMLU", score := decVal ['8', '5'] ['5'], category := "reasoning" }] := rfl
  exact ⟨rfl, by rw [hb, h855], rfl, by decide⟩

/-- C1 (amended): for the scenario document, extraction for
`"acme/foo-7b"` produces a candidate record with `is_open_source = true`
and exactly one benchmark entry whose name is `MMLU`, whose score is
`85.5`, and whose category is `"reasoning"`. -/
theorem scenarioExtractionAmended :
    (parseModelPage scenarioDoc "acme/foo-7b").isOpenSource = true ∧
    (parseModelPage scenarioDoc "acme/foo-7b").benchmarks =
      [{ name := "MMLU", score := 85.5, category := "reasoning" }] := by
  have h855 : decVal ['8', '5'] ['5'] = (85.5 : ℚ) := by
    simp only [decVal, (by decide : digitsVal ['8', '5'] = 85),
      (by decide : digitsVal ['5'] = 5)]
    norm_num
  refine ⟨rfl, ?_⟩
  rw [← h855]
  rfl

/-- C3 (counterexample): identifiers are not normalized before being
used as cache/merge keys.  After successfully fetching `"Acme/Foo-7B"`,
fetching `"acme/foo-7b"` (same identifier up to casing) misses the cache
and issues a second network request, and after fetching
`"acme/foo-7b"`, fetching `"acme/foo-7b/"` (same up to a trailing slash)
also issues a second request — the pairs resolve to distinct entities. -/
theorem caseSensitiveKeysCounterexample :
    (scrapeModel (scrapeModel [] "Acme/Foo-7B" (.status 200 {})).cache
      "acme/foo-7b" (.status 200 {})).requestIssued = true ∧
    (scrapeModel (scrapeModel [] "acme/foo-7b" (.status 200 {})).cache
      "acme/foo-7b/" (.status 200 {})).requestIssued = true ∧
    cacheLookup (scrapeModel [] "Acme/Foo-7B" (.status 200 {})).cache
      "acme/foo-7b" = Option.none :=
  ⟨rfl, rfl, rfl⟩

/-- C3 (amended): entity identifiers are used verbatim as cache and
merge keys, with no normalization: one fetch touches no cache key other
than the verbatim identifier it was given, and any identifier missing
from the cache — including one differing from a cached identifier only
in casing or a trailing slash — is fetched over the network. -/
theorem verbatimKeysAmended (cache : HFCache) (modelId k : String)
    (outcome : FetchOutcome) (h : k ≠ modelId) :
    cacheLookup (scrapeModel cache modelId outcome).cache k = cacheLookup cache k ∧
    (cacheLookup cache modelId = Option.none →
      (scrapeModel cache modelId outcome).requestIssued = true) := by
  constructor
  · cases hc : cacheLookup cache modelId with
    | some c => rw [scrapeModel_cached cache modelId outcome c hc]
    | none =>
      unfold scrapeModel
      rw [hc]
      cases outcome with
      | status code doc =>
        simp only
        split_ifs <;> simp [cacheLookup, Ne.symm h]
      | httpError m => rfl
      | otherError m => rfl
  · intro hm
    unfold scrapeModel
    rw [hm]
    cases outcome with
    | status code doc =>
      simp only
      split_ifs <;> rfl
    | httpError m => rfl
    | otherError m => rfl

/-- Witness for `verbatimKeysAmended`: fetching `"Acme/Foo-7B"` leaves
the cache entry of the differently-cased `"acme/foo-7b"` untouched, and
issues a network request even though the differently-cased identifier is
cached. -/
theorem verbatimKeysAmendedWitness :
    cacheLookup (scrapeModel [("acme/foo-7b", Option.none)] "Acme/Foo-7B"
        (.status 404 {})).cache "acme/foo-7b" =
      cacheLookup [("acme/foo-7b", Option.none)] "acme/foo-7b" ∧
    (scrapeModel [("acme/foo-7b", Option.none)] "Acme/Foo-7B"
        (.status 404 {})).requestIssued = true := by
  have h := verbatimKeysAmended [("acme/foo-7b", Option.none)] "Acme/Foo-7B"
    "acme/foo-7b" (.status 404 {}) (by decide)
  exact ⟨h.1, h.2 rfl⟩

/-- C4 (counterexample): not every outcome is cached.  A rate-limited
(HTTP 429) fetch of `"acme/foo-7b"` leaves the cache empty, so a second
fetch of the same identifier within the same run issues a second network
request — contradicting the claim that a second fetch after any
completed outcome returns the cached result without network traffic. -/
theorem rateLimitedNotCachedCounterexample :
    (scrapeModel [] "acme/foo-7b" (.status 429 {})).requestIssued = true ∧
    (scrapeModel [] "acme/foo-7b" (.status 429 {})).cache = [] ∧
    (scrapeModel (scrapeModel [] "acme/foo-7b" (.status 429 {})).cache
      "acme/foo-7b" (.status 429 {})).requestIssued = true :=
  ⟨rfl, rfl, rfl⟩

/-- C4 (amended): fetching is idempotent within one run for success and
not-found outcomes only.  After a first fetch of an identifier completes
with a success status (`< 400`) or with 404, a second fetch of the same
identifier issues no network request and returns the cached result,
whatever outcome the network would have delivered; in particular
NotFound results are cached and never retried.  (Rate-limited and error
outcomes are not cached and are re-requested.) -/
theorem cachedOutcomesAmended (cache : HFCache) (modelId : String) (doc : HFDoc)
    (code : Nat) (h : code < 400) (outcome₂ : FetchOutcome) :
    (scrapeModel (scrapeModel cache modelId (.status code doc)).cache modelId outcome₂ =
      ⟨(scrapeModel cache modelId (.status code doc)).result,
       (scrapeModel cache modelId (.status code doc)).cache, false⟩) ∧
    (scrapeModel (scrapeModel cache modelId (.status 404 doc)).cache modelId outcome₂ =
      ⟨(scrapeModel cache modelId (.status 404 doc)).result,
       (scrapeModel cache modelId (.status 404 doc)).cache, false⟩) := by
  constructor
  · cases hc : cacheLookup cache modelId with
    | some c =>
      rw [scrapeModel_cached cache modelId _ c hc]
      exact scrapeModel_cached cache modelId outcome₂ c hc
    | none =>
      rw [scrapeModel_success cache modelId doc code hc h]
      exact scrapeModel_cached _ _ _ _ (cacheLookup_cons_self cache modelId _)
  · cases hc : cacheLookup cache modelId with
    | some c =>
      rw [scrapeModel_cached cache modelId _ c hc]
      exact scrapeModel_cached cache modelId outcome₂ c hc
    | none =>
      rw [scrapeModel_notFound cache modelId doc hc]
      exact scrapeModel_cached _ _ _ _ (cacheLookup_cons_self cache modelId _)

/-- Witness for `cachedOutcomesAmended`: after a successful (200) fetch
and after a 404 fetch of `"acme/foo-7b"` on an empty cache, a repeated
fetch — even one the network would answer 429 — is a silent cache
hit. -/
theorem cachedOutcomesAmendedWitness :
    (scrapeModel (scrapeModel [] "acme/foo-7b" (.status 200 {})).cache "acme/foo-7b"
        (.status 429 {}) =
      ⟨(scrapeModel [] "acme/foo-7b" (.status 200 {})).result,
       (scrapeModel [] "acme/foo-7b" (.status 200 {})).cache, false⟩) ∧
    (scrapeModel (scrapeModel [] "acme/foo-7b" (.status 404 {})).cache "acme/foo-7b"
        (.status 429 {}) =
      ⟨(scrapeModel [] "acme/foo-7b" (.status 404 {})).result,
       (scrapeModel [] "acme/foo-7b" (.status 404 {})).cache, false⟩) :=
  cachedOutcomesAmended [] "acme/foo-7b" {} 200 (by omega) (.status 429 {})

/-- C6: merging is non-destructive to the primary source.  For every
llm-stats record whose identifier has HuggingFace data in the map, the
`benchmarks` entry of the merged record is the llm-stats record's
`benchmarks` entry unchanged, and the HuggingFace benchmarks (when
nonempty) appear only under the separate `hf_benchmarks` key. -/
theorem mergePreservesPrimaryBenchmarks (hfMap : List (String × HFRecord))
    (model : Dict) (hf : HFRecord)
    (h : hfMapGet hfMap (model.getStr "model_id") = some hf) :
    (enrichModel hfMap model).get "benchmarks" = model.get "benchmarks" ∧
    (hf.benchmarks ≠ [] →
      (enrichModel hfMap model).get "hf_benchmarks" =
        some (.benchList hf.benchmarks)) := by
  simp only [enrichModel, h]
  by_cases hb : hf.benchmarks.isEmpty
  · refine ⟨?_, fun hne => absurd (List.isEmpty_iff.mp hb) hne⟩
    simp only [hb, if_pos]
    rw [Dict.get_set_ne _ _ _ _ (by decide), Dict.get_set_ne _ _ _ _ (by decide),
      Dict.get_set_ne _ _ _ _ (by decide), Dict.get_set_ne _ _ _ _ (by decide),
      Dict.get_set_ne _ _ _ _ (by decide), Dict.get_set_ne _ _ _ _ (by decide),
      Dict.get_set_ne _ _ _ _ (by decide), Dict.get_set_ne _ _ _ _ (by decide)]
  · constructor
    · simp only [hb, if_neg, Bool.false_eq_true, not_false_iff]
      rw [Dict.get_set_ne _ _ _ _ (by decide), Dict.get_set_ne _ _ _ _ (by decide),
        Dict.get_set_ne _ _ _ _ (by decide), Dict.get_set_ne _ _ _ _ (by decide),
        Dict.get_set_ne _ _ _ _ (by decide), Dict.get_set_ne _ _ _ _ (by decide),
        Dict.get_set_ne _ _ _ _ (by decide), Dict.get_set_ne _ _ _ _ (by decide),
        Dict.get_set_ne _ _ _ _ (by decide)]
    · intro _
      simp only [hb, if_neg, Bool.false_eq_true, not_false_iff]
      exact Dict.get_set_self _ _ _

/-- Witness data for the merge claims: one primary record and one
HuggingFace record for the same identifier. -/
def witnessPrimaryModel : Dict :=
  [("model_id", Val.str "acme/foo-7b"),
   ("benchmarks", Val.benchList [{ name := "MMLU", score := 80, category := "knowledge" }])]

def witnessHfRecord : HFRecord :=
  { modelId := "acme/foo-7b"
    modelName := "foo-7b"
    organization := "acme"
    isOpenSource := true
    license := some "mit"
    benchmarks := [{ name := "GSM8K", score := 90, category := "reasoning" }] }

/-- Witness for `mergePreservesPrimaryBenchmarks` at a concrete record
pair. -/
theorem mergePreservesPrimaryBenchmarksWitness :
    (enrichModel [("acme/foo-7b", witnessHfRecord)] witnessPrimaryModel).get "benchmarks" =
      witnessPrimaryModel.get "benchmarks" ∧
    (enrichModel [("acme/foo-7b", witnessHfRecord)] witnessPrimaryModel).get "hf_benchmarks" =
      some (.benchList witnessHfRecord.benchmarks) := by
  have h := mergePreservesPrimaryBenchmarks [("acme/foo-7b", witnessHfRecord)]
    witnessPrimaryModel witnessHfRecord rfl
  exact ⟨h.1, h.2 (by simp [witnessHfRecord])⟩

/-- C10: every record produced by the rendered-table collector — by the
row-extraction path as well as by the JSON-in-markup fallback path — has
`is_open_source` set to `True` unconditionally, with no license
information consulted. -/
theorem renderedRecordsOpenSourceFlag :
    (∀ (cells : List String) (d : Dict), extractModelFromRow cells = some d →
      d.get "is_open_source" = some (.bool true)) ∧
    ∀ name, (normalizeJsonModel name).get "is_open_source" = some (.bool true) := by
  constructor
  · intro cells d h
    unfold extractModelFromRow at h
    split at h
    · exact Option.noConfusion h
    · split at h
      · exact Option.noConfusion h
      · split at h
        · exact Option.noConfusion h
        · split at h
          · exact Option.noConfusion h
          · injection h with h
            subst h
            rfl
  · intro name
    rfl

/-- Witness for `renderedRecordsOpenSourceFlag` at a concrete row with
no license cell at all. -/
theorem renderedRecordsOpenSourceFlagWitness :
    Dict.get
      [("model_id", Val.str "meta-llama/Llama-3-70B"),
       ("model_name", Val.str "Llama-3-70B"),
       ("organization", Val.str "meta-llama"),
       ("benchmarks", Val.benchList []),
       ("source", Val.str "llm-stats.com"),
       ("is_open_source", Val.bool true),
       ("input_price_per_1m", Val.null),
       ("output_price_per_1m", Val.null),
       ("parameters", Val.null)] "is_open_source" =
      some (.bool true) :=
  renderedRecordsOpenSourceFlag.1 ["Llama-3-70B", "abc"] _ rfl

/-- C7: in every candidate record produced by extraction, no two
benchmark entries share the same `(name, score)` pair, and first-seen
order is preserved.  For the markup extractor, the de-duplicated list is
a subsequence of the concatenated table-pass and text-pass output in
which every pair of that output still occurs (first occurrences
survive); for the rendered-table collector, positional naming makes all
`(name, score)` pairs distinct outright. -/
theorem benchmarkPairsUnique :
    (∀ doc : HFDoc,
      ((extractBenchmarks doc).map benchPair).Nodup ∧
      List.Sublist (extractBenchmarks doc)
        (extractTableBenchmarks doc.tables ++ extractBenchmarksFromText doc.text) ∧
      ∀ b ∈ extractTableBenchmarks doc.tables ++ extractBenchmarksFromText doc.text,
        benchPair b ∈ (extractBenchmarks doc).map benchPair) ∧
    ∀ cells : List String,
      ((parseBenchmarksFromCells cells).map benchPair).Nodup := by
  constructor
  · intro doc
    exact ⟨(dedupAux_pairs _ []).1, dedupAux_sublist _ [],
      fun b hb => dedupAux_complete _ [] b hb (by simp)⟩
  · intro cells
    exact nodup_pairs_of_nodup_names _ (parseBenchCellsAux_names_nodup cells 0)

/-- Witness for `benchmarkPairsUnique`: the scenario document's single
table benchmark survives de-duplication. -/
theorem benchmarkPairsUniqueWitness :
    benchPair { name := "MMLU", score := decVal ['8', '5'] ['5'], category := "reasoning" } ∈
      (extractBenchmarks scenarioDoc).map benchPair :=
  (benchmarkPairsUnique.1 scenarioDoc).2.2 _ (List.mem_cons_self _ _)

end ModelWatch
